import Mathlib

/-!
Verification of the e2b-mcp-server core (sandbox pool, security validator,
tool pipeline) against its natural-language specification.

The TypeScript sources are shallowly embedded:
* strings are `String` / `List Char` (JS UTF-16 length is modelled as the
  character count; the inputs the claims quantify over contain no surrogate
  pairs, where the two notions agree),
* JS regular-expression `replace`/`test` calls are embedded as executable
  left-to-right scanners (each regex used by the code is deterministic: every
  starred character class is disjoint from the character class that follows
  it, so greedy matching never backtracks),
* `Date` timestamps are `Nat` values passed explicitly (`now`),
* the remote sandbox provider is opaque: its observable behaviour (execution
  results, kill failures, file contents) enters as explicit parameters, and
  the remote calls a handler performs are collected in an explicit trace,
* `logger.*` calls either vanish (pure logging) or, where a claim is about
  the logged warnings, are collected in a returned list,
* thrown exceptions are modelled with `Except` / error results, mirroring the
  `try`/`catch` boundaries of the source.

Recursive scanners take an explicit fuel argument so that they are structural
and reduce inside the kernel; the wrappers instantiate the fuel with the input
length, which bounds the number of scanning steps (every step consumes at
least one character).
-/

namespace E2B

/-! ### Character classes used by the embedded regular expressions -/

/-- ASCII `[0-9]`. -/
def isAsciiDigit (c : Char) : Bool := '0' ≤ c && c ≤ '9'

/-- ASCII `[a-zA-Z]`. -/
def isAsciiLetter (c : Char) : Bool :=
  ('a' ≤ c && c ≤ 'z') || ('A' ≤ c && c ≤ 'Z')

/-- ASCII `[a-zA-Z0-9]`. -/
def isAsciiAlnum (c : Char) : Bool := isAsciiLetter c || isAsciiDigit c

/-- The character class `[0-9;]` of ANSI escape parameters. -/
def isAnsiParamChar (c : Char) : Bool := isAsciiDigit c || c = ';'

/-- JS `\s` restricted to the ASCII whitespace characters (the Unicode space
characters JS also accepts never occur in the inputs considered here). -/
def isJsWhitespace (c : Char) : Bool :=
  c = ' ' || c = '\t' || c = '\n' || c = '\r' || c = '\x0b' || c = '\x0c'

/-- The quote class `["']` (`\x27` is the apostrophe). -/
def isQuoteChar (c : Char) : Bool := c = '"' || c = '\x27'

/-! ### Kernel-reducible string primitives

The core `String.trim`, `String.take` and `String.startsWith` go through
`Substring` machinery that the kernel does not reduce; the embedding uses
these character-list equivalents so that concrete runs evaluate. -/

/-- JS `String.prototype.trim`: strip leading and trailing whitespace. -/
def jsTrim (s : String) : String :=
  String.mk (((s.data.dropWhile isJsWhitespace).reverse.dropWhile
    isJsWhitespace).reverse)

/-- `s.substring(0, n)` (the first `n` characters). -/
def strTake (s : String) (n : Nat) : String := String.mk (s.data.take n)

/-- `s.startsWith(pre)`. -/
def strStartsWith (s pre : String) : Bool := pre.data.isPrefixOf s.data

/-! ### `SecurityValidator.sanitizeOutput` (security.ts)

```ts
static sanitizeOutput(output: string): string {
  const ansiEscapePattern = /\x1b\[[0-9;]*[a-zA-Z]/g;
  let sanitized = output.replace(ansiEscapePattern, '');
  const secretPatterns = [
    { pattern: /sk-[a-zA-Z0-9]{48}/g, replacement: 'sk-***HIDDEN***' },
    { pattern: /ghp_[a-zA-Z0-9]{36}/g, replacement: 'ghp_***HIDDEN***' },
    { pattern: /password\s*[:=]\s*["']([^"']+)["']/gi,
      replacement: 'password: "***HIDDEN***"' },
    { pattern: /api_key\s*[:=]\s*["']([^"']+)["']/gi,
      replacement: 'api_key: "***HIDDEN***"' },
  ];
  for (const { pattern, replacement } of secretPatterns) {
    sanitized = sanitized.replace(pattern, replacement);
  }
  return sanitized;
}
```
-/

/-- After `ESC [`, consume `[0-9;]*` and then one `[a-zA-Z]`; return the rest
of the input when the regex `\x1b\[[0-9;]*[a-zA-Z]` matches (the two classes
are disjoint, so the greedy star is deterministic). -/
def ansiParamsEnd : List Char → Option (List Char)
  | [] => none
  | c :: cs =>
    if isAnsiParamChar c then ansiParamsEnd cs
    else if isAsciiLetter c then some cs
    else none

/-- Does `\x1b\[[0-9;]*[a-zA-Z]` match at the head of the input?  Returns the
remainder after the match. -/
def ansiMatchEnd : List Char → Option (List Char)
  | '\x1b' :: '[' :: rest => ansiParamsEnd rest
  | _ => none

/-- `output.replace(/\x1b\[[0-9;]*[a-zA-Z]/g, '')`: remove every
(leftmost-first, non-overlapping) match. -/
def stripAnsiGo : Nat → List Char → List Char
  | 0, l => l
  | _ + 1, [] => []
  | fuel + 1, c :: cs =>
    match ansiMatchEnd (c :: cs) with
    | some rest => stripAnsiGo fuel rest
    | none => c :: stripAnsiGo fuel cs

/-- Consume exactly `n` characters of class `[a-zA-Z0-9]`. -/
def dropExactAlnum : Nat → List Char → Option (List Char)
  | 0, l => some l
  | _ + 1, [] => none
  | n + 1, c :: cs => if isAsciiAlnum c then dropExactAlnum n cs else none

/-- Does `sk-[a-zA-Z0-9]{48}` match at the head of the input? -/
def skMatchEnd : List Char → Option (List Char)
  | 's' :: 'k' :: '-' :: rest => dropExactAlnum 48 rest
  | _ => none

/-- Does `ghp_[a-zA-Z0-9]{36}` match at the head of the input? -/
def ghpMatchEnd : List Char → Option (List Char)
  | 'g' :: 'h' :: 'p' :: '_' :: rest => dropExactAlnum 36 rest
  | _ => none

/-- `replace(/sk-[a-zA-Z0-9]{48}/g, 'sk-***HIDDEN***')`. -/
def maskSkGo : Nat → List Char → List Char
  | 0, l => l
  | _ + 1, [] => []
  | fuel + 1, c :: cs =>
    match skMatchEnd (c :: cs) with
    | some rest => "sk-***HIDDEN***".data ++ maskSkGo fuel rest
    | none => c :: maskSkGo fuel cs

/-- `replace(/ghp_[a-zA-Z0-9]{36}/g, 'ghp_***HIDDEN***')`. -/
def maskGhpGo : Nat → List Char → List Char
  | 0, l => l
  | _ + 1, [] => []
  | fuel + 1, c :: cs =>
    match ghpMatchEnd (c :: cs) with
    | some rest => "ghp_***HIDDEN***".data ++ maskGhpGo fuel rest
    | none => c :: maskGhpGo fuel cs

/-- Case-insensitive literal match: consume `key` (comparing lower-cased
characters, the behaviour of the `i` regex flag) and return the rest. -/
def ciPrefixEnd : List Char → List Char → Option (List Char)
  | [], l => some l
  | _ :: _, [] => none
  | k :: ks, c :: cs =>
    if k.toLower = c.toLower then ciPrefixEnd ks cs else none

/-- Does `key\s*[sep]\s*["']([^"']+)["']` match at the head of the input
(`key` case-insensitively, `sep` drawn from `seps`)?  All the starred classes
are disjoint from their successors, so greedy matching is deterministic: the
quoted content is the maximal run of non-quote characters and must be
non-empty. -/
def kvMatchEnd (seps : List Char) (key : List Char) (l : List Char) :
    Option (List Char) :=
  match ciPrefixEnd key l with
  | none => none
  | some r1 =>
    match skipWsList r1 with
    | [] => none
    | sep :: r2 =>
      if seps.contains sep then
        match skipWsList r2 with
        | [] => none
        | q :: r3 =>
          if isQuoteChar q then
            let content := r3.takeWhile (fun c => !(isQuoteChar c))
            if content.isEmpty then none
            else
              match r3.drop content.length with
              | [] => none
              | c2 :: r4 => if isQuoteChar c2 then some r4 else none
          else none
      else none
where
  /-- `\s*`: drop leading JS whitespace. -/
  skipWsList (l : List Char) : List Char := l.dropWhile isJsWhitespace

/-- `replace(/key\s*[:=]\s*["']([^"']+)["']/gi, repl)` for a fixed key and a
fixed replacement (the replacement never mentions the captured group). -/
def maskKvGo (key repl : List Char) : Nat → List Char → List Char
  | 0, l => l
  | _ + 1, [] => []
  | fuel + 1, c :: cs =>
    match kvMatchEnd [':', '='] key (c :: cs) with
    | some rest => repl ++ maskKvGo key repl fuel rest
    | none => c :: maskKvGo key repl fuel cs

/-- `SecurityValidator.sanitizeOutput`: strip ANSI escape sequences, then
apply the four secret-masking replacements in their fixed order. -/
def sanitizeOutput (s : String) : String :=
  let a := stripAnsiGo s.data.length s.data
  let b := maskSkGo a.length a
  let c := maskGhpGo b.length b
  let d := maskKvGo "password".data "password: \"***HIDDEN***\"".data c.length c
  let e := maskKvGo "api_key".data "api_key: \"***HIDDEN***\"".data d.length d
  String.mk e

/-! ### Generic regex-test helper

`pattern.test(s)` is true when the pattern matches at some position of `s`
(the engine tries every start position from the left, including the position
just past the last character). -/

/-- Try `matchAt` at every suffix of the input. -/
def testGo (matchAt : List Char → Option (List Char)) : List Char → Bool
  | [] => (matchAt []).isSome
  | c :: cs => (matchAt (c :: cs)).isSome || testGo matchAt cs

/-- Consume exactly `n` characters of class `p`. -/
def dropExactClass (p : Char → Bool) : Nat → List Char → Option (List Char)
  | 0, l => some l
  | _ + 1, [] => none
  | n + 1, c :: cs => if p c then dropExactClass p n cs else none

/-- `\s+`: at least one whitespace character, consumed greedily (the
character that follows in every pattern using `\s+` is not whitespace, so the
greedy star is deterministic). -/
def wsPlusEnd : List Char → Option (List Char)
  | [] => none
  | c :: cs =>
    if isJsWhitespace c then some (cs.dropWhile isJsWhitespace) else none

/-- Case-sensitive substring test (JS `String.prototype.includes`). -/
def hasSubstr (s pat : String) : Bool := go pat.data s.data
where
  go (pat : List Char) : List Char → Bool
    | [] => pat.isEmpty
    | c :: cs => pat.isPrefixOf (c :: cs) || go pat cs

/-- Case-insensitive substring test (a `/lit/gi` regex with a literal body). -/
def hasCiSubstr (s pat : String) : Bool := testGo (ciPrefixEnd pat.data) s.data

/-! ### `SecurityValidator` verdicts, limits and pattern rules (security.ts) -/

/-- The `{ isValid: boolean; reason?: string }` verdict shape. -/
structure Verdict where
  isValid : Bool
  reason : Option String
deriving DecidableEq, Repr

/-- The closed `'python' | 'javascript'` language variant. -/
inductive Lang
  | python
  | javascript
deriving DecidableEq, Repr

namespace SecurityValidator

def MAX_CODE_LENGTH : Nat := 50000
def MAX_FILE_SIZE : Nat := 10 * 1024 * 1024
def MAX_FILENAME_LENGTH : Nat := 255

/-- Matcher for `/import\s+socket/gi`. -/
def importSocketEnd (l : List Char) : Option (List Char) :=
  (ciPrefixEnd "import".data l).bind fun r =>
    (wsPlusEnd r).bind (ciPrefixEnd "socket".data)

/-- Matcher for `/from\s+socket\s+import/gi`. -/
def fromSocketImportEnd (l : List Char) : Option (List Char) :=
  (ciPrefixEnd "from".data l).bind fun r1 =>
    (wsPlusEnd r1).bind fun r2 =>
      (ciPrefixEnd "socket".data r2).bind fun r3 =>
        (wsPlusEnd r3).bind (ciPrefixEnd "import".data)

/-- Matcher for `/\/home\/(?!user)/gi`: `/home/` not followed by `user`
(both case-insensitive). -/
def homeNotUserEnd (l : List Char) : Option (List Char) :=
  match ciPrefixEnd "/home/".data l with
  | none => none
  | some r => if (ciPrefixEnd "user".data r).isSome then none else some r

/-- Matcher for `/key\s*=\s*["'][^"']+["']/gi` (the detection variant of the
credential patterns, which accepts only `=`). -/
def kvAssignEnd (key : String) (l : List Char) : Option (List Char) :=
  kvMatchEnd ['='] key.data l

/-- `DANGEROUS_PATTERNS`: each entry pairs the regex source (used in the
logged warning) with its matcher. -/
def DANGEROUS_PATTERNS : List (String × (List Char → Option (List Char))) :=
  [ ("import\\s+socket", importSocketEnd),
    ("from\\s+socket\\s+import", fromSocketImportEnd),
    ("urllib\\.request", ciPrefixEnd "urllib.request".data),
    ("requests\\.", ciPrefixEnd "requests.".data),
    ("http\\.", ciPrefixEnd "http.".data),
    ("fetch\\(", ciPrefixEnd "fetch(".data),
    ("XMLHttpRequest", ciPrefixEnd "XMLHttpRequest".data),
    ("\\/etc\\/", ciPrefixEnd "/etc/".data),
    ("\\/root\\/", ciPrefixEnd "/root/".data),
    ("\\/home\\/(?!user)", homeNotUserEnd),
    ("\\/usr\\/bin", ciPrefixEnd "/usr/bin".data),
    ("\\/sys\\/", ciPrefixEnd "/sys/".data),
    ("\\/proc\\/", ciPrefixEnd "/proc/".data),
    ("subprocess\\.", ciPrefixEnd "subprocess.".data),
    ("os\\.system", ciPrefixEnd "os.system".data),
    ("exec\\(", ciPrefixEnd "exec(".data),
    ("eval\\(", ciPrefixEnd "eval(".data),
    ("child_process", ciPrefixEnd "child_process".data),
    ("password\\s*=\\s*[\"\x27][^\"\x27]+[\"\x27]", kvAssignEnd "password"),
    ("api_key\\s*=\\s*[\"\x27][^\"\x27]+[\"\x27]", kvAssignEnd "api_key"),
    ("secret\\s*=\\s*[\"\x27][^\"\x27]+[\"\x27]", kvAssignEnd "secret"),
    ("token\\s*=\\s*[\"\x27][^\"\x27]+[\"\x27]", kvAssignEnd "token") ]

/-! `pattern.test` keeps per-regex `lastIndex` state across calls because the
static patterns carry the `g` flag; detection is embedded statelessly, as a
single fresh application of each pattern.  The warnings are log-only and the
verdict never depends on them, so this choice affects no verdict. -/

/-- `validatePythonCode`: logs warnings for restricted imports, always
returns a passing verdict.  The warning strings are returned alongside. -/
def validatePythonCode (code : String) : Verdict × List String :=
  let restrictedImports := ["__import__", "importlib", "reload"]
  let warnings :=
    (restrictedImports.filter (fun r => hasSubstr code r)).map
      (fun r => "Potentially restricted Python import detected: " ++ r)
  (⟨true, none⟩, warnings)

/-- `validateJavaScriptCode`: logs warnings for dangerous Node operations,
always returns a passing verdict. -/
def validateJavaScriptCode (code : String) : Verdict × List String :=
  let dangerousNodeOps :=
    ["require(\"fs\")", "require(\"child_process\")", "require(\"os\")",
     "require(\"cluster\")", "process.exit", "process.kill"]
  let warnings :=
    (dangerousNodeOps.filter (fun r => hasSubstr code r)).map
      (fun r => "Potentially dangerous Node.js operation detected: " ++ r)
  (⟨true, none⟩, warnings)

/-- `validateCode`: hard size and emptiness checks, then the soft dangerous
pattern scan (warnings only), then the language-specific validation.  Returns
the verdict together with the warnings the source would log. -/
def validateCode (code : String) (language : Lang) : Verdict × List String :=
  if code.length > MAX_CODE_LENGTH then
    (⟨false, some ("Code exceeds maximum length of " ++
        toString MAX_CODE_LENGTH ++ " characters")⟩, [])
  else if jsTrim code = "" then
    (⟨false, some "Code cannot be empty"⟩, [])
  else
    let patternWarnings :=
      (DANGEROUS_PATTERNS.filter (fun p => testGo p.2 code.data)).map
        (fun p => "Potentially dangerous code pattern detected: " ++ p.1)
    match language with
    | .python =>
      let (v, w) := validatePythonCode code
      (v, patternWarnings ++ w)
    | .javascript =>
      let (v, w) := validateJavaScriptCode code
      (v, patternWarnings ++ w)

/-- The `dangerousPaths` array of `validateFilePath`. -/
def dangerousPaths : List String := ["/etc", "/root", "/usr", "/sys", "/proc", "/dev"]

/-- The `for` loop of `validateFilePath`: the first dangerous prefix of the
path, in array order. -/
def findDangerousPath (path : String) : List String → Option String
  | [] => none
  | p :: ps => if strStartsWith path p then some p else findDangerousPath path ps

/-- `validateFilePath`: length, emptiness, `..` traversal, forbidden system
prefix, null byte — in that order, first failure wins. -/
def validateFilePath (path : String) : Verdict :=
  if path.length > MAX_FILENAME_LENGTH then
    ⟨false, some ("File path exceeds maximum length of " ++
        toString MAX_FILENAME_LENGTH ++ " characters")⟩
  else if jsTrim path = "" then
    ⟨false, some "File path cannot be empty"⟩
  else if hasSubstr path ".." then
    ⟨false, some "Directory traversal not allowed in file paths"⟩
  else
    match findDangerousPath path dangerousPaths with
    | some p => ⟨false, some ("Access to system directory " ++ p ++ " is not allowed")⟩
    | none =>
      if hasSubstr path "\x00" then
        ⟨false, some "Null bytes not allowed in file paths"⟩
      else ⟨true, none⟩

/-- `Buffer.byteLength(content, 'utf8')`: the UTF-8 byte length. -/
def utf8Len (l : List Char) : Nat := (l.map Char.utf8Size).sum

/-- The base64 class `[a-zA-Z0-9+/]`. -/
def isBase64Char (c : Char) : Bool := isAsciiAlnum c || c = '+' || c = '/'

/-- Matcher for `/-----BEGIN\s+(RSA\s+)?PRIVATE\s+KEY-----/gi`: the optional
`RSA\s+` group is tried first, then dropped. -/
def privateKeyEnd (l : List Char) : Option (List Char) :=
  (ciPrefixEnd "-----BEGIN".data l).bind fun r1 =>
    (wsPlusEnd r1).bind fun r2 =>
      match ((ciPrefixEnd "RSA".data r2).bind wsPlusEnd).bind tailEnd with
      | some r => some r
      | none => tailEnd r2
where
  /-- `PRIVATE\s+KEY-----`. -/
  tailEnd (l : List Char) : Option (List Char) :=
    (ciPrefixEnd "PRIVATE".data l).bind fun r =>
      (wsPlusEnd r).bind (ciPrefixEnd "KEY-----".data)

/-- The secret scan of `validateFileContent`: private-key header, a ≥ 32 run
of base64 characters (`/[a-zA-Z0-9+/]{32,}={0,2}/` matches exactly when such
a run exists), an OpenAI key shape, a GitHub token shape. -/
def contentSecretDetected (content : String) : Bool :=
  testGo privateKeyEnd content.data ||
  testGo (dropExactClass isBase64Char 32) content.data ||
  testGo skMatchEnd content.data ||
  testGo ghpMatchEnd content.data

/-- `validateFileContent`: hard byte-length check, then hard secret scan. -/
def validateFileContent (content : String) : Verdict :=
  if utf8Len content.data > MAX_FILE_SIZE then
    ⟨false, some ("File content exceeds maximum size of " ++
        toString MAX_FILE_SIZE ++ " bytes")⟩
  else if contentSecretDetected content then
    ⟨false, some "File content contains potential secrets"⟩
  else ⟨true, none⟩

/-- Middle class of the PEP-508-style python package pattern. -/
def isPyMidChar (c : Char) : Bool :=
  isAsciiAlnum c || c = '.' || c = '_' || c = '-'

/-- Full match of `^[a-zA-Z0-9][a-zA-Z0-9._-]*[a-zA-Z0-9]$|^[a-zA-Z0-9]$`. -/
def pythonPkgOk : List Char → Bool
  | [] => false
  | [c] => isAsciiAlnum c
  | c :: cs =>
    isAsciiAlnum c &&
      (match cs.reverse with
       | [] => false
       | d :: mid => isAsciiAlnum d && mid.all isPyMidChar)

/-- First class `[a-zA-Z0-9-~]` of the npm pattern. -/
def isNpmFirstChar (c : Char) : Bool := isAsciiAlnum c || c = '-' || c = '~'

/-- Rest class `[a-zA-Z0-9-._~]` of the npm pattern. -/
def isNpmRestChar (c : Char) : Bool := isNpmFirstChar c || c = '.' || c = '_'

/-- An unscoped npm name: `[a-zA-Z0-9-~][a-zA-Z0-9-._~]*`. -/
def npmNameOk : List Char → Bool
  | [] => false
  | c :: cs => isNpmFirstChar c && cs.all isNpmRestChar

/-- Full match of
`^(@[a-zA-Z0-9-~][a-zA-Z0-9-._~]*\/)?[a-zA-Z0-9-~][a-zA-Z0-9-._~]*$`: the
rest class excludes `/`, so a scoped name is `@scope/name` with exactly one
slash and an unscoped name contains none. -/
def npmPkgOk : List Char → Bool
  | '@' :: rest =>
    let scope := rest.takeWhile isNpmRestChar
    (match scope with
     | [] => false
     | c :: _ => isNpmFirstChar c) &&
      (match rest.drop scope.length with
       | '/' :: nm => npmNameOk nm
       | _ => false)
  | l => npmNameOk l

/-- The suspicious-name blocklist patterns (`/malware/gi` etc.). -/
def suspiciousName (packageName : String) : Bool :=
  hasCiSubstr packageName "malware" || hasCiSubstr packageName "backdoor" ||
  hasCiSubstr packageName "virus" || hasCiSubstr packageName "trojan"

/-- `validatePackageName`: emptiness, length, ecosystem grammar, blocklist —
in that order. -/
def validatePackageName (packageName : String) (language : Lang) : Verdict :=
  if jsTrim packageName = "" then
    ⟨false, some "Package name cannot be empty"⟩
  else if packageName.length > 100 then
    ⟨false, some "Package name too long"⟩
  else
    let formatVerdict : Verdict :=
      match language with
      | .python =>
        if pythonPkgOk packageName.data then ⟨true, none⟩
        else ⟨false, some ("Invalid Python package name: " ++ packageName)⟩
      | .javascript =>
        if npmPkgOk packageName.data then ⟨true, none⟩
        else ⟨false, some ("Invalid npm package name: " ++ packageName)⟩
    if formatVerdict.isValid then
      if suspiciousName packageName then
        ⟨false, some ("Package name appears suspicious: " ++ packageName)⟩
      else ⟨true, none⟩
    else formatVerdict

/-- `validatePackages`: count checks, then all-or-nothing per-name checks
(the first invalid name's verdict is returned). -/
def validatePackages (packages : List String) (language : Lang) : Verdict :=
  if packages.isEmpty then
    ⟨false, some "Package list cannot be empty"⟩
  else if packages.length > 50 then
    ⟨false, some "Too many packages requested (maximum 50)"⟩
  else firstInvalid packages
where
  /-- The per-package loop: return the first failing verdict. -/
  firstInvalid : List String → Verdict
    | [] => ⟨true, none⟩
    | p :: ps =>
      let v := validatePackageName p language
      if v.isValid then firstInvalid ps else v

end SecurityValidator

/-! ### `SandboxService` — the sandbox pool (sandbox-manager.ts)

The JS `Map` iterates in insertion order; it is embedded as a list of
handles in insertion order.  `new Date()` timestamps are `Nat` values: every
`new Date()` evaluated during one operation is the single explicit `now`
argument of that operation.  `uuidv4()` is the explicit `freshId` argument.
The opaque `sandbox` session object is external; the only behaviour of it the
pool observes is whether `sandbox.kill()` throws, passed as `killThrows`.
Remote calls performed by an operation are returned as an explicit trace. -/

/-- The `SandboxManager` record (types.ts), minus the opaque remote session
reference. -/
structure SandboxHandle where
  id : String
  createdAt : Nat
  lastUsed : Nat
  language : Lang
deriving DecidableEq, Repr

/-- The pool registry `Map<string, SandboxManager>` in insertion order. -/
abbrev Pool := List SandboxHandle

/-- One remote-capability invocation, recorded in a handler's trace. -/
inductive RemoteCall
  | sandboxCreate (language : Lang)
  | runCode (language : Lang)
  | filesWrite (path : String)
  | filesRead (path : String)
  | filesList (path : String)
deriving DecidableEq, Repr

/-- `MAX_OUTPUT_LENGTH` (types.ts). -/
def MAX_OUTPUT_LENGTH : Nat := 10000

namespace SandboxService

/-- `getSandbox`: look up by id; when found, bump `lastUsed` to now (the
source mutates the stored object in place, so the registry entry changes and
the iteration order does not). -/
def getSandbox (pool : Pool) (i : String) (now : Nat) :
    Option SandboxHandle × Pool :=
  match pool.find? (fun h => h.id == i) with
  | none => (none, pool)
  | some h =>
    (some { h with lastUsed := now },
     pool.map (fun g => if g.id == i then { g with lastUsed := now } else g))

/-- `createSandbox`: provision remotely (assumed to succeed here; on failure
the source rethrows before registering anything), register a new handle with
`createdAt = lastUsed = now` at the end of the registry. -/
def createSandbox (pool : Pool) (language : Lang) (now : Nat)
    (freshId : String) : String × Pool :=
  (freshId, pool ++ [⟨freshId, now, now, language⟩])

/-- The `for (const [id, sandbox] of this.sandboxes.entries())` scan of
`getOrCreateSandbox`: first handle of the requested language, in insertion
order, with its `lastUsed` bumped in place. -/
def scanForLanguage (language : Lang) (now : Nat) :
    Pool → Option (SandboxHandle × Pool)
  | [] => none
  | h :: t =>
    if h.language = language then
      some ({ h with lastUsed := now }, { h with lastUsed := now } :: t)
    else
      match scanForLanguage language now t with
      | some (r, t') => some (r, h :: t')
      | none => none

/-- `getOrCreateSandbox`: explicit-id lookup (language-checked), then
language-affinity scan, then creation.  The trace records the remote
provisioning call when one happens. -/
def getOrCreateSandbox (pool : Pool) (language : Lang)
    (sandboxId : Option String) (now : Nat) (freshId : String) :
    SandboxHandle × Pool × List RemoteCall :=
  let step1 : Option SandboxHandle × Pool :=
    match sandboxId with
    | some i =>
      let (r, p) := getSandbox pool i now
      match r with
      | some existing =>
        if existing.language = language then (some existing, p) else (none, p)
      | none => (none, p)
    | none => (none, pool)
  match step1 with
  | (some h, p) => (h, p, [])
  | (none, p) =>
    match scanForLanguage language now p with
    | some (h, p') => (h, p', [])
    | none =>
      let (newId, p2) := createSandbox p language now freshId
      match getSandbox p2 newId now with
      | (some h, p3) => (h, p3, [RemoteCall.sandboxCreate language])
      | (none, p3) =>
        -- unreachable: the source asserts `this.getSandbox(newId)!`
        (⟨newId, now, now, language⟩, p3, [RemoteCall.sandboxCreate language])

/-- `terminateSandbox`: no-op on an unknown id; otherwise the remote kill is
attempted and the registry entry is deleted on both the success path and the
catch path. -/
def terminateSandbox (pool : Pool) (i : String) (killThrows : String → Bool) :
    Pool :=
  match pool.find? (fun h => h.id == i) with
  | none => pool
  | some h =>
    if killThrows h.id then
      -- `catch`: the failure is logged and the entry is removed anyway
      pool.filter (fun g => !(g.id == i))
    else
      pool.filter (fun g => !(g.id == i))

/-- The termination phase of `cleanup`: one `terminateSandbox` per key of a
snapshot of the registry, awaited with `Promise.allSettled` so that no
individual failure aborts the rest (embedded as the sequential fold, each
step of which already swallows its own failure). -/
def runTerminations (pool : Pool) (killThrows : String → Bool) : Pool :=
  (pool.map (fun h => h.id)).foldl
    (fun p i => terminateSandbox p i killThrows) pool

/-- `cleanup` (shutdown drain): run all terminations, then
`this.sandboxes.clear()`. -/
def cleanup (pool : Pool) (killThrows : String → Bool) : Pool :=
  (runTerminations pool killThrows).filter (fun _ => false)

/-- `listSandboxes`: snapshot of (id, language, createdAt, lastUsed). -/
def listSandboxes (pool : Pool) : List (String × Lang × Nat × Nat) :=
  pool.map (fun sb => (sb.id, sb.language, sb.createdAt, sb.lastUsed))

end SandboxService

/-! ### `E2BTools` — the per-tool pipeline (tools.ts)

Each handler takes the pool, the caller-supplied arguments, the explicit
`now`/`freshId` inputs, and the observable behaviour of the remote sandbox
(an `Except` for remote failure, mirroring the `try`/`catch` blocks).  It
returns the `CallToolResult` content (text + isError, with thrown errors
already converted by the `executeTool` boundary to an `Error: ...` text), the
updated pool, and the trace of remote calls performed. -/

/-- The `result.error` field of a run-code result. -/
structure ExecError where
  name : String
  value : String
  traceback : Option String
deriving DecidableEq, Repr

/-- The `result.logs` field of a run-code result. -/
structure ExecLogs where
  stdout : Option (List String)
  stderr : Option (List String)
deriving DecidableEq, Repr

/-- One entry of `result.results`. -/
structure ResultItem where
  text : Option String
deriving DecidableEq, Repr

/-- A remote run-code result. -/
structure ExecResult where
  logs : Option ExecLogs
  results : Option (List ResultItem)
  error : Option ExecError
deriving DecidableEq, Repr

/-- A `CallToolResult` with one text content item. -/
structure ToolResult where
  text : String
  isError : Bool
deriving DecidableEq, Repr

/-- One log-stream block of the output accumulation:
`if (... && l.length > 0) output += l.join('\n') + '\n'`. -/
def appendLogLines (output : String) (o : Option (List String)) : String :=
  match o with
  | some l =>
    if l.length > 0 then output ++ String.intercalate "\n" l ++ "\n"
    else output
  | none => output

/-- The interactive-results block of the output accumulation:
`for (const res of result.results) if (res.text) output += res.text + '\n'`,
guarded by `result.results && result.results.length > 0`. -/
def appendResults (output : String) (o : Option (List ResultItem)) : String :=
  match o with
  | some rs =>
    if rs.length > 0 then
      rs.foldl (fun acc res =>
        match res.text with
        | some t => if t ≠ "" then acc ++ t ++ "\n" else acc
        | none => acc) output
    else output
  | none => output

/-- The structured-error block of the output accumulation, which also sets
`hasError`. -/
def appendError (output : String) (o : Option ExecError) : String × Bool :=
  match o with
  | some e =>
    let output := output ++ "Error: " ++ e.name ++ ": " ++ e.value ++ "\n"
    let output :=
      match e.traceback with
      | some tb => if tb ≠ "" then output ++ tb ++ "\n" else output
      | none => output
    (output, true)
  | none => (output, false)

/-- The output/hasError accumulation shared verbatim by `executePython`,
`executeJavaScript` and `installPackages`: stdout lines, stderr lines,
interactive result texts, then the structured error with its traceback.
JS truthiness guards (`if (result.logs)`, `if (res.text)`, ...) become
`Option`/non-emptiness tests. -/
def assembleOutput (result : ExecResult) : String × Bool :=
  let output := ""
  let output :=
    match result.logs with
    | none => output
    | some logs => appendLogLines (appendLogLines output logs.stdout) logs.stderr
  let output := appendResults output result.results
  appendError output result.error

/-- The truncation block shared verbatim by both executors:
`output.substring(0, MAX_OUTPUT_LENGTH) + '\n... (output truncated)'` when
the output is over the limit. -/
def truncateOutput (output : String) : String :=
  if output.length > MAX_OUTPUT_LENGTH then
    strTake output MAX_OUTPUT_LENGTH ++ "\n... (output truncated)"
  else output

/-- The success envelope of both executors. -/
def execSuccessText (executionTime : Nat) (sandboxId : String)
    (output : String) : String :=
  "Execution completed in " ++ toString executionTime ++ "ms\nSandbox ID: " ++
    sandboxId ++ "\n\nOutput:\n" ++ (if output = "" then "(no output)" else output)

/-- The failure envelope of both executors (remote `runCode` threw). -/
def execFailureText (executionTime : Nat) (sandboxId : String)
    (msg : String) : String :=
  "Execution failed after " ++ toString executionTime ++ "ms\nSandbox ID: " ++
    sandboxId ++ "\n\nError: " ++ msg

/-- The tag used in language-dependent text. -/
def langName : Lang → String
  | .python => "python"
  | .javascript => "javascript"

namespace E2BTools

/-- `executePython`: presence check, code validation, sandbox resolution,
remote run, output assembly, truncation, then sanitization. -/
def executePython (pool : Pool) (code : String) (sandbox_id : Option String)
    (now : Nat) (freshId : String) (remote : Except String ExecResult)
    (executionTime : Nat) : ToolResult × Pool × List RemoteCall :=
  if code = "" then
    (⟨"Error: Code parameter is required and must be a string", true⟩, pool, [])
  else
    let validation := (SecurityValidator.validateCode code .python).1
    if !validation.isValid then
      (⟨"Error: Security validation failed: " ++ validation.reason.getD "",
        true⟩, pool, [])
    else
      let (sandbox, pool', createCalls) :=
        SandboxService.getOrCreateSandbox pool .python sandbox_id now freshId
      match remote with
      | .error msg =>
        (⟨execFailureText executionTime sandbox.id msg, true⟩, pool',
         createCalls ++ [RemoteCall.runCode .python])
      | .ok result =>
        let (output, hasError) := assembleOutput result
        let output := truncateOutput output
        let output := sanitizeOutput output
        (⟨execSuccessText executionTime sandbox.id output, hasError⟩, pool',
         createCalls ++ [RemoteCall.runCode .python])

/-- `executeJavaScript`: identical pipeline except for the language — and for
the absence of the sanitization step after truncation. -/
def executeJavaScript (pool : Pool) (code : String)
    (sandbox_id : Option String) (now : Nat) (freshId : String)
    (remote : Except String ExecResult) (executionTime : Nat) :
    ToolResult × Pool × List RemoteCall :=
  if code = "" then
    (⟨"Error: Code parameter is required and must be a string", true⟩, pool, [])
  else
    let validation := (SecurityValidator.validateCode code .javascript).1
    if !validation.isValid then
      (⟨"Error: Security validation failed: " ++ validation.reason.getD "",
        true⟩, pool, [])
    else
      let (sandbox, pool', createCalls) :=
        SandboxService.getOrCreateSandbox pool .javascript sandbox_id now freshId
      match remote with
      | .error msg =>
        (⟨execFailureText executionTime sandbox.id msg, true⟩, pool',
         createCalls ++ [RemoteCall.runCode .javascript])
      | .ok result =>
        let (output, hasError) := assembleOutput result
        let output := truncateOutput output
        (⟨execSuccessText executionTime sandbox.id output, hasError⟩, pool',
         createCalls ++ [RemoteCall.runCode .javascript])

/-- `createFile`: presence check, path validation, content validation, then
the remote write.  (`content === undefined` is not representable in the typed
embedding; `content` is always a string here, as in a well-typed call.) -/
def createFile (pool : Pool) (path content : String)
    (sandbox_id : Option String) (now : Nat) (freshId : String)
    (writeFails : Option String) : ToolResult × Pool × List RemoteCall :=
  if path = "" then
    (⟨"Error: Path and content parameters are required", true⟩, pool, [])
  else
    let pathValidation := SecurityValidator.validateFilePath path
    if !pathValidation.isValid then
      (⟨"Error: Path validation failed: " ++ pathValidation.reason.getD "",
        true⟩, pool, [])
    else
      let contentValidation := SecurityValidator.validateFileContent content
      if !contentValidation.isValid then
        (⟨"Error: Content validation failed: " ++
            contentValidation.reason.getD "", true⟩, pool, [])
      else
        let (sandbox, pool', createCalls) :=
          SandboxService.getOrCreateSandbox pool .python sandbox_id now freshId
        match writeFails with
        | some msg =>
          (⟨"Error: " ++ msg, true⟩, pool',
           createCalls ++ [RemoteCall.filesWrite path])
        | none =>
          (⟨"File created successfully: " ++ path ++ "\nSandbox ID: " ++
              sandbox.id ++ "\nContent length: " ++ toString content.length ++
              " bytes", false⟩, pool',
           createCalls ++ [RemoteCall.filesWrite path])

/-- `readFile`: a presence check on the path is the only gate; no
`SecurityValidator` check runs before the remote read. -/
def readFile (pool : Pool) (path : String) (sandbox_id : Option String)
    (now : Nat) (freshId : String) (remote : Except String String) :
    ToolResult × Pool × List RemoteCall :=
  if path = "" then
    (⟨"Error: Path parameter is required", true⟩, pool, [])
  else
    let (sandbox, pool', createCalls) :=
      SandboxService.getOrCreateSandbox pool .python sandbox_id now freshId
    match remote with
    | .error msg =>
      (⟨"Error: " ++ msg, true⟩, pool',
       createCalls ++ [RemoteCall.filesRead path])
    | .ok content =>
      (⟨"File: " ++ path ++ "\nSandbox ID: " ++ sandbox.id ++
          "\nContent length: " ++ toString content.length ++ " bytes\n\n" ++
          content, false⟩, pool',
       createCalls ++ [RemoteCall.filesRead path])

/-- One entry of a remote directory listing. -/
structure FileEntry where
  name : String
  type : String
  size : Option Nat
deriving DecidableEq, Repr

/-- One line of the `listFiles` output. -/
def fileEntryLine (f : FileEntry) : String :=
  (if f.type = "dir" then "📁" else "📄") ++ " " ++ f.name ++
    (match f.size with
     | some n => if n ≠ 0 then " (" ++ toString n ++ " bytes)" else ""
     | none => "")

/-- `listFiles`: the path defaults to `.`; no validation at all runs before
the remote listing. -/
def listFiles (pool : Pool) (path : Option String)
    (sandbox_id : Option String) (now : Nat) (freshId : String)
    (remote : Except String (List FileEntry)) :
    ToolResult × Pool × List RemoteCall :=
  let path := path.getD "."
  let (sandbox, pool', createCalls) :=
    SandboxService.getOrCreateSandbox pool .python sandbox_id now freshId
  match remote with
  | .error msg =>
    (⟨"Error: " ++ msg, true⟩, pool',
     createCalls ++ [RemoteCall.filesList path])
  | .ok files =>
    (⟨"Directory: " ++ path ++ "\nSandbox ID: " ++ sandbox.id ++ "\nFiles (" ++
        toString files.length ++ "):\n\n" ++
        String.intercalate "\n" (files.map fileEntryLine), false⟩, pool',
     createCalls ++ [RemoteCall.filesList path])

/-- `installPackages`: presence check, package-list validation, then the
language-specific install script is built and sent to the remote `runCode`.
The output assembly matches the executors'; there is no truncation and no
sanitization here. -/
def installPackages (pool : Pool) (packages : List String) (language : Lang)
    (sandbox_id : Option String) (now : Nat) (freshId : String)
    (remote : Except String ExecResult) : ToolResult × Pool × List RemoteCall :=
  if packages.isEmpty then
    (⟨"Error: Packages parameter is required and must be a non-empty array",
      true⟩, pool, [])
  else
    let packageValidation := SecurityValidator.validatePackages packages language
    if !packageValidation.isValid then
      (⟨"Error: Package validation failed: " ++
          packageValidation.reason.getD "", true⟩, pool, [])
    else
      let (sandbox, pool', createCalls) :=
        SandboxService.getOrCreateSandbox pool language sandbox_id now freshId
      match remote with
      | .error msg =>
        (⟨"Error: " ++ msg, true⟩, pool',
         createCalls ++ [RemoteCall.runCode language])
      | .ok result =>
        let (output, hasError) := assembleOutput result
        (⟨"Package installation " ++ (if hasError then "failed" else "completed") ++
            "\nSandbox ID: " ++ sandbox.id ++ "\nPackages: " ++
            String.intercalate ", " packages ++ "\nLanguage: " ++
            langName language ++ "\n\nOutput:\n" ++
            (if output = "" then "(no output)" else output), hasError⟩, pool',
         createCalls ++ [RemoteCall.runCode language])

/-- The outcome of `getSandboxInfo`. -/
inductive InfoResult
  | notFound (msg : String)
  | info (id : String) (language : Lang) (createdAt lastUsed : Nat)
      (status : String) (filesCount : Nat)
  | listing (entries : List (String × Lang × Nat × Nat))
  | remoteError (msg : String)
deriving DecidableEq, Repr

/-- `getSandboxInfo`: with an id, a `getSandbox` lookup (which bumps
`lastUsed`) followed by a thrown not-found error or the remote file count;
with no id, a local listing of all handles. -/
def getSandboxInfo (pool : Pool) (sandbox_id : Option String) (now : Nat)
    (remote : Except String Nat) : InfoResult × Pool × List RemoteCall :=
  match sandbox_id with
  | some i =>
    let (r, pool') := SandboxService.getSandbox pool i now
    match r with
    | none => (.notFound ("Sandbox " ++ i ++ " not found"), pool', [])
    | some sandbox =>
      match remote with
      | .error msg => (.remoteError msg, pool', [RemoteCall.filesList "."])
      | .ok filesCount =>
        (.info sandbox.id sandbox.language sandbox.createdAt sandbox.lastUsed
          "active" filesCount, pool', [RemoteCall.filesList "."])
  | none => (.listing (SandboxService.listSandboxes pool), pool, [])

end E2BTools

/-! ### Spec-side definitions

These follow the specification's wording, to be compared with the
definitions translated from the source. -/

/-- Spec §4.5 (5), one log stream's contribution to the combined block:
the lines joined by newlines, newline-terminated, empty when the stream is
absent or empty. -/
def specLogBlock : Option (List String) → String
  | some l => if l.isEmpty then "" else String.intercalate "\n" l ++ "\n"
  | none => ""

/-- Spec §4.5 (5), one structured result's contribution: its text,
newline-terminated, when present and non-empty. -/
def specResultText (r : ResultItem) : String :=
  match r.text with
  | some t => if t = "" then "" else t ++ "\n"
  | none => ""

/-- Spec §4.5 (5), the structured results' contribution: every present,
non-empty result text, newline-terminated, in order. -/
def specResultsText : List ResultItem → String
  | [] => ""
  | r :: rs => specResultText r ++ specResultsText rs

/-- The structured results' contribution, absent results contributing
nothing. -/
def specResultsBlock : Option (List ResultItem) → String
  | some rs => specResultsText rs
  | none => ""

/-- Spec §4.5 (5), the structured error's contribution: the error header
line followed by the traceback when one is present. -/
def specErrorBlock : Option ExecError → String
  | some e =>
    "Error: " ++ e.name ++ ": " ++ e.value ++ "\n" ++
      (match e.traceback with
       | some tb => if tb = "" then "" else tb ++ "\n"
       | none => "")
  | none => ""

/-- Spec §4.5 (5): "collect the remote result's standard output, standard
error, structured results, and structured error fields into one combined
text block". -/
def specCombinedOutput (r : ExecResult) : String :=
  specLogBlock (r.logs.bind ExecLogs.stdout) ++
    specLogBlock (r.logs.bind ExecLogs.stderr) ++
    specResultsBlock r.results ++ specErrorBlock r.error

/-- Spec §4.2 `validate_file_path`: the five independent checks in their
documented order — length, emptiness, traversal, forbidden-prefix,
null-byte — each yielding its reason when it fails. -/
def specPathChecks (path : String) : List (Option String) :=
  [ if path.length > SecurityValidator.MAX_FILENAME_LENGTH then
      some ("File path exceeds maximum length of " ++
        toString SecurityValidator.MAX_FILENAME_LENGTH ++ " characters")
    else none,
    if jsTrim path = "" then some "File path cannot be empty" else none,
    if hasSubstr path ".." then
      some "Directory traversal not allowed in file paths"
    else none,
    (SecurityValidator.dangerousPaths.find? (fun p => strStartsWith path p)).map
      (fun p => "Access to system directory " ++ p ++ " is not allowed"),
    if hasSubstr path "\x00" then
      some "Null bytes not allowed in file paths"
    else none ]

/-- Spec §4.2: "the first failing check's reason is returned". -/
def firstFailure : List (Option String) → Verdict
  | [] => ⟨true, none⟩
  | none :: t => firstFailure t
  | some r :: _ => ⟨false, some r⟩

/-! ## Theorems -/

/-! ### Shared helper lemmas -/

/-- Removing a handle never leaves an entry with the removed id behind, and
leaves only handles that were already registered. -/
theorem terminateSandbox_sub (pool : Pool) (i : String) (kt : String → Bool) :
    ∀ g ∈ SandboxService.terminateSandbox pool i kt, g ∈ pool ∧ g.id ≠ i := by
  intro g hg
  unfold SandboxService.terminateSandbox at hg
  cases hfind : pool.find? (fun h => h.id == i) with
  | none =>
    rw [hfind] at hg
    refine ⟨hg, ?_⟩
    have := List.find?_eq_none.mp hfind g hg
    simpa using this
  | some h =>
    rw [hfind] at hg
    simp only [List.mem_filter, ite_self] at hg
    refine ⟨hg.1, ?_⟩
    simpa using hg.2

/-- Folding terminations over a list of ids that covers every registered
handle's id empties the registry. -/
theorem foldTerm_empties (kt : String → Bool) :
    ∀ (ids : List String) (acc : Pool), (∀ g ∈ acc, g.id ∈ ids) →
      ids.foldl (fun p i => SandboxService.terminateSandbox p i kt) acc = [] := by
  intro ids
  induction ids with
  | nil =>
    intro acc hacc
    cases acc with
    | nil => rfl
    | cons g t => exact absurd (hacc g (by simp)) (by simp)
  | cons i rest ih =>
    intro acc hacc
    show List.foldl _ (SandboxService.terminateSandbox acc i kt) rest = []
    apply ih
    intro g hg
    obtain ⟨hga, hgi⟩ := terminateSandbox_sub acc i kt g hg
    have := hacc g hga
    simp only [List.mem_cons] at this
    exact this.resolve_left hgi

/-- With an id-unique pool, looking up a member's id finds that member. -/
theorem find?_mem_of_nodup (pool : Pool) (h : SandboxHandle)
    (hmem : h ∈ pool) (hnodup : (pool.map SandboxHandle.id).Nodup) :
    pool.find? (fun g => g.id == h.id) = some h := by
  induction pool with
  | nil => cases hmem
  | cons a t ih =>
    rcases List.mem_cons.mp hmem with rfl | hmem'
    · simp [List.find?_cons]
    · have hne : a.id ≠ h.id := by
        intro he
        have : h.id ∈ t.map SandboxHandle.id := List.mem_map_of_mem _ hmem'
        rw [← he] at this
        exact (List.nodup_cons.mp hnodup).1 this
      have hbeq : (a.id == h.id) = false := beq_eq_false_iff_ne.mpr hne
      simp only [List.find?_cons, hbeq]
      exact ih hmem' (List.nodup_cons.mp hnodup).2

/-- An unknown id makes the lookup a no-op returning nothing. -/
theorem getSandbox_unknown (pool : Pool) (i : String) (now : Nat)
    (hunknown : ∀ g ∈ pool, g.id ≠ i) :
    SandboxService.getSandbox pool i now = (none, pool) := by
  have hfind : pool.find? (fun h => h.id == i) = none :=
    List.find?_eq_none.mpr fun g hg => by simpa using hunknown g hg
  unfold SandboxService.getSandbox
  rw [hfind]

/-! ### C3 — idempotence of the output sanitizer -/

/-- C3, counterexample: the sanitizer is not idempotent.  Stripping the ANSI
escape sequence embedded in `\x1b[3\x1b[31m1m` splices the surrounding
characters into the new escape sequence `\x1b[31m`, which only a second
sanitization pass removes, so `sanitize (sanitize x) ≠ sanitize x`. -/
theorem sanitizeOutput_not_idempotent :
    sanitizeOutput (sanitizeOutput "\x1b[3\x1b[31m1m")
      ≠ sanitizeOutput "\x1b[3\x1b[31m1m"
    ∧ sanitizeOutput "\x1b[3\x1b[31m1m" = "\x1b[31m"
    ∧ sanitizeOutput (sanitizeOutput "\x1b[3\x1b[31m1m") = "" := by decide

/-- C3, amended: what survives of the claim is its second half — no masked
replacement marker produced by a sanitization rule is itself matched and
changed by re-applying sanitization: each of the four replacement markers is
a fixed point of `sanitizeOutput`. -/
theorem sanitizeOutput_markers_fixed :
    sanitizeOutput "sk-***HIDDEN***" = "sk-***HIDDEN***"
    ∧ sanitizeOutput "ghp_***HIDDEN***" = "ghp_***HIDDEN***"
    ∧ sanitizeOutput "password: \"***HIDDEN***\"" = "password: \"***HIDDEN***\""
    ∧ sanitizeOutput "api_key: \"***HIDDEN***\"" = "api_key: \"***HIDDEN***\"" := by
  decide

/-! ### C6 — shutdown drain empties the registry -/

/-- C6: for every pool state, the shutdown drain leaves zero handles in the
local registry, whatever subset of the remote destroy calls throws: the
termination phase alone already removes every entry (each `terminateSandbox`
deletes its entry on the catch path too), and no individual failure aborts
the others or leaves its entry behind. -/
theorem cleanup_empties_registry (pool : Pool) (killThrows : String → Bool) :
    SandboxService.cleanup pool killThrows = []
    ∧ SandboxService.runTerminations pool killThrows = []
    ∧ ∀ i : String, ∀ g ∈ SandboxService.terminateSandbox pool i killThrows,
        g.id ≠ i := by
  have hterm : SandboxService.runTerminations pool killThrows = [] := by
    unfold SandboxService.runTerminations
    exact foldTerm_empties killThrows (pool.map (fun h => h.id)) pool
      (fun g hg => List.mem_map_of_mem _ hg)
  refine ⟨?_, hterm, ?_⟩
  · unfold SandboxService.cleanup
    rw [hterm]
    rfl
  · intro i g hg
    exact (terminateSandbox_sub pool i killThrows g hg).2

/-! ### C4 — unknown sandbox identifiers -/

/-- C4, counterexample: an invocation referencing a sandbox id that is not in
the pool does not fail — `execute_python` with the unknown id `missing-id`
silently reuses the pooled python sandbox `A` and reports success, and
`getOrCreateSandbox` hands out the substitute handle. -/
theorem unknown_id_substitute_counterexample :
    (E2BTools.executePython [⟨"A", 0, 0, .python⟩] "print(1)" (some "missing-id")
        5 "F" (.ok ⟨none, none, none⟩) 7).1
      = ⟨"Execution completed in 7ms\nSandbox ID: A\n\nOutput:\n(no output)", false⟩
    ∧ (SandboxService.getOrCreateSandbox [⟨"A", 0, 0, .python⟩] .python
        (some "missing-id") 5 "F").1.id = "A" := by decide

/-- C4, amended: only `get_sandbox_info` surfaces a descriptive not-found
failure naming the missing sandbox; `getOrCreateSandbox` — the resolution
path of every other tool — treats an unknown explicit id exactly like an
absent one, silently reusing the first same-language handle or creating a
new sandbox. -/
theorem unknown_id_behaviour (pool : Pool) (i : String) (now : Nat)
    (remote : Except String Nat) (hunknown : ∀ g ∈ pool, g.id ≠ i) :
    (E2BTools.getSandboxInfo pool (some i) now remote).1
      = .notFound ("Sandbox " ++ i ++ " not found")
    ∧ ∀ (lang : Lang) (fid : String),
        SandboxService.getOrCreateSandbox pool lang (some i) now fid
          = SandboxService.getOrCreateSandbox pool lang none now fid := by
  have hget := getSandbox_unknown pool i now hunknown
  constructor
  · simp only [E2BTools.getSandboxInfo, hget]
  · intro lang fid
    simp only [SandboxService.getOrCreateSandbox, hget]

/-- C4 witness: instantiating the amended statement on a one-handle pool and
the unknown id `B`. -/
theorem unknown_id_behaviour_witness :
    (E2BTools.getSandboxInfo [⟨"A", 0, 0, .python⟩] (some "B") 5 (.ok 0)).1
      = .notFound ("Sandbox " ++ "B" ++ " not found")
    ∧ SandboxService.getOrCreateSandbox [⟨"A", 0, 0, .python⟩] .python (some "B") 5 "F"
        = SandboxService.getOrCreateSandbox [⟨"A", 0, 0, .python⟩] .python none 5 "F" := by
  have h := unknown_id_behaviour [⟨"A", 0, 0, .python⟩] "B" 5 (.ok 0) (by decide)
  exact ⟨h.1, h.2 .python "F"⟩

/-! ### C5 — creation then reuse on an empty pool -/

/-- C5: on an empty pool, `get_or_create(python)` with no id registers
exactly one new handle (one remote provisioning call, a one-handle registry);
an immediate second `get_or_create(python)` with no id returns the handle
with the same identifier, its `lastUsed` advanced to the later time and not
decreased, creates nothing (no remote call), and leaves the registry with
that single handle. -/
theorem getOrCreate_empty_then_reuse (t1 t2 : Nat) (f1 f2 : String)
    (hle : t1 ≤ t2) :
    SandboxService.getOrCreateSandbox [] .python none t1 f1
      = (⟨f1, t1, t1, .python⟩, [⟨f1, t1, t1, .python⟩],
         [RemoteCall.sandboxCreate .python])
    ∧ SandboxService.getOrCreateSandbox [⟨f1, t1, t1, .python⟩] .python none t2 f2
      = (⟨f1, t1, t2, .python⟩, [⟨f1, t1, t2, .python⟩], [])
    ∧ (⟨f1, t1, t1, .python⟩ : SandboxHandle).id
        = (⟨f1, t1, t2, .python⟩ : SandboxHandle).id
    ∧ (⟨f1, t1, t1, .python⟩ : SandboxHandle).lastUsed
        ≤ (⟨f1, t1, t2, .python⟩ : SandboxHandle).lastUsed := by
  refine ⟨?_, ?_, rfl, hle⟩
  · simp [SandboxService.getOrCreateSandbox, SandboxService.scanForLanguage,
      SandboxService.createSandbox, SandboxService.getSandbox, List.find?_cons]
  · simp [SandboxService.getOrCreateSandbox, SandboxService.scanForLanguage]

/-- C5 witness: the scenario at concrete times 1 ≤ 2 and fresh ids. -/
theorem getOrCreate_empty_then_reuse_witness :
    SandboxService.getOrCreateSandbox [] .python none 1 "a"
      = (⟨"a", 1, 1, .python⟩, [⟨"a", 1, 1, .python⟩],
         [RemoteCall.sandboxCreate .python])
    ∧ SandboxService.getOrCreateSandbox [⟨"a", 1, 1, .python⟩] .python none 2 "b"
      = (⟨"a", 1, 2, .python⟩, [⟨"a", 1, 2, .python⟩], []) := by
  have h := getOrCreate_empty_then_reuse 1 2 "a" "b" (by decide)
  exact ⟨h.1, h.2.1⟩

/-! ### C2 — validation gates and the remote-call boundary -/

/-- C2, counterexample: `read_file` performs no Input Validator check — a
path that fails `validateFilePath` (directory traversal) is still sent to
the remote capability, and the invocation does not return a validation
failure. -/
theorem readFile_skips_validation_counterexample :
    (SecurityValidator.validateFilePath "../../etc/passwd").isValid = false
    ∧ (E2BTools.readFile [] "../../etc/passwd" none 2 "F" (.ok "secret")).2.2
        = [RemoteCall.sandboxCreate .python, RemoteCall.filesRead "../../etc/passwd"]
    ∧ (E2BTools.readFile [] "../../etc/passwd" none 2 "F" (.ok "secret")).1.isError
        = false := by decide

/-- C2, amended: `execute_python`, `execute_javascript`, `create_file` and
`install_packages` gate their caller-supplied parameters — whenever the
relevant Input Validator check fails the invocation returns a failure and
performs no remote call at all; `read_file` and `list_files`, however, run no
Input Validator check: they invoke the remote capability for any non-empty
(resp. any, after defaulting) path. -/
theorem validation_gates :
    (∀ (pool : Pool) (code : String) (sid : Option String) (now : Nat)
        (fid : String) (remote : Except String ExecResult) (ms : Nat),
      (SecurityValidator.validateCode code .python).1.isValid = false →
        (E2BTools.executePython pool code sid now fid remote ms).2.2 = []
        ∧ (E2BTools.executePython pool code sid now fid remote ms).1.isError = true)
    ∧ (∀ (pool : Pool) (code : String) (sid : Option String) (now : Nat)
        (fid : String) (remote : Except String ExecResult) (ms : Nat),
      (SecurityValidator.validateCode code .javascript).1.isValid = false →
        (E2BTools.executeJavaScript pool code sid now fid remote ms).2.2 = []
        ∧ (E2BTools.executeJavaScript pool code sid now fid remote ms).1.isError = true)
    ∧ (∀ (pool : Pool) (path content : String) (sid : Option String) (now : Nat)
        (fid : String) (wf : Option String),
      (SecurityValidator.validateFilePath path).isValid = false →
        (E2BTools.createFile pool path content sid now fid wf).2.2 = []
        ∧ (E2BTools.createFile pool path content sid now fid wf).1.isError = true)
    ∧ (∀ (pool : Pool) (path content : String) (sid : Option String) (now : Nat)
        (fid : String) (wf : Option String),
      (SecurityValidator.validateFilePath path).isValid = true →
      (SecurityValidator.validateFileContent content).isValid = false →
        (E2BTools.createFile pool path content sid now fid wf).2.2 = []
        ∧ (E2BTools.createFile pool path content sid now fid wf).1.isError = true)
    ∧ (∀ (pool : Pool) (packages : List String) (lang : Lang)
        (sid : Option String) (now : Nat) (fid : String)
        (remote : Except String ExecResult),
      (SecurityValidator.validatePackages packages lang).isValid = false →
        (E2BTools.installPackages pool packages lang sid now fid remote).2.2 = []
        ∧ (E2BTools.installPackages pool packages lang sid now fid remote).1.isError = true)
    ∧ (∀ (pool : Pool) (path : String) (sid : Option String) (now : Nat)
        (fid : String) (remote : Except String String), path ≠ "" →
      RemoteCall.filesRead path ∈ (E2BTools.readFile pool path sid now fid remote).2.2)
    ∧ (∀ (pool : Pool) (path : Option String) (sid : Option String) (now : Nat)
        (fid : String) (remote : Except String (List E2BTools.FileEntry)),
      RemoteCall.filesList (path.getD ".")
        ∈ (E2BTools.listFiles pool path sid now fid remote).2.2) := by
  refine ⟨?_, ?_, ?_, ?_, ?_, ?_, ?_⟩
  · intro pool code sid now fid remote ms hv
    by_cases hc : code = "" <;> simp [E2BTools.executePython, hc, hv]
  · intro pool code sid now fid remote ms hv
    by_cases hc : code = "" <;> simp [E2BTools.executeJavaScript, hc, hv]
  · intro pool path content sid now fid wf hv
    by_cases hc : path = "" <;> simp [E2BTools.createFile, hc, hv]
  · intro pool path content sid now fid wf hvp hvc
    by_cases hc : path = ""
    · rw [hc] at hvp
      exact absurd hvp (by decide)
    · simp [E2BTools.createFile, hc, hvp, hvc]
  · intro pool packages lang sid now fid remote hv
    by_cases hc : packages.isEmpty <;> simp [E2BTools.installPackages, hc, hv]
  · intro pool path sid now fid remote hne
    cases remote <;> simp [E2BTools.readFile, hne]
  · intro pool path sid now fid remote
    cases remote <;> simp [E2BTools.listFiles]

/-- C2 witness: the spec scenario — `install_packages(["not a valid name!"],
python)` fails validation and performs no remote call — plus a traversal
path reaching the remote read. -/
theorem validation_gates_witness :
    ((E2BTools.installPackages [] ["not a valid name!"] .python none 2 "F"
        (.ok ⟨none, none, none⟩)).2.2 = []
      ∧ (E2BTools.installPackages [] ["not a valid name!"] .python none 2 "F"
          (.ok ⟨none, none, none⟩)).1.isError = true)
    ∧ RemoteCall.filesRead "../x" ∈ (E2BTools.readFile [] "../x" none 2 "F"
        (.ok "")).2.2 := by
  exact ⟨validation_gates.2.2.2.2.1 [] ["not a valid name!"] .python none 2 "F"
      (.ok ⟨none, none, none⟩) (by decide),
    validation_gates.2.2.2.2.2.1 [] "../x" none 2 "F" (.ok "") (by decide)⟩

/-! ### C7 — file-path validation order and traversal -/

/-- The prefix loop of `validateFilePath` equals a `find?` over the
dangerous-path list. -/
theorem findDangerousPath_eq (path : String) (l : List String) :
    SecurityValidator.findDangerousPath path l
      = l.find? (fun p => strStartsWith path p) := by
  induction l with
  | nil => rfl
  | cons p ps ih =>
    cases hsp : strStartsWith path p <;>
      simp [SecurityValidator.findDangerousPath, List.find?_cons, hsp, ih]

/-- C7: every path within the 255-character limit and non-blank that
contains `..` fails with the traversal reason; and `validateFilePath` agrees
everywhere with the spec-side check list — length, emptiness, traversal,
forbidden-prefix, null-byte, first failing reason returned. -/
theorem path_validation_spec :
    (∀ path : String, path.length ≤ 255 → jsTrim path ≠ "" →
      hasSubstr path ".." = true →
      SecurityValidator.validateFilePath path
        = ⟨false, some "Directory traversal not allowed in file paths"⟩)
    ∧ ∀ path : String,
        SecurityValidator.validateFilePath path
          = firstFailure (specPathChecks path) := by
  constructor
  · intro path h1 h2 h3
    unfold SecurityValidator.validateFilePath
    rw [if_neg (by simp only [SecurityValidator.MAX_FILENAME_LENGTH]; omega),
      if_neg h2, if_pos h3]
  · intro path
    unfold SecurityValidator.validateFilePath specPathChecks
    rw [findDangerousPath_eq]
    by_cases h1 : path.length > SecurityValidator.MAX_FILENAME_LENGTH
    · simp [h1, firstFailure]
    · by_cases h2 : jsTrim path = ""
      · simp [h1, h2, firstFailure]
      · by_cases h3 : hasSubstr path ".." = true
        · simp [h1, h2, h3, firstFailure]
        · cases hfind : SecurityValidator.dangerousPaths.find?
              (fun p => strStartsWith path p) with
          | none =>
            by_cases h5 : hasSubstr path "\x00" = true <;>
              simp [h1, h2, h3, hfind, h5, firstFailure]
          | some p => simp [h1, h2, h3, hfind, firstFailure]

/-- C7 witness: the traversal path `a/../b` (short, non-blank). -/
theorem path_validation_spec_witness :
    ("a/../b".length ≤ 255 ∧ jsTrim "a/../b" ≠ ""
      ∧ hasSubstr "a/../b" ".." = true)
    ∧ SecurityValidator.validateFilePath "a/../b"
        = ⟨false, some "Directory traversal not allowed in file paths"⟩ :=
  ⟨⟨by decide, by decide, by decide⟩,
    path_validation_spec.1 "a/../b" (by decide) (by decide) (by decide)⟩

/-! ### C8 — code validation is hard only on size and emptiness -/

/-- C8: a code string within the 50,000-character limit and non-blank passes
`validateCode` for both languages whatever patterns it contains; an
over-limit string fails citing the length limit; a within-limit blank string
fails citing emptiness; and a concrete dangerous string (`import socket`)
passes with a logged warning — the pattern scan is soft. -/
theorem code_validation_spec :
    (∀ (code : String) (lang : Lang), code.length ≤ 50000 → jsTrim code ≠ "" →
      (SecurityValidator.validateCode code lang).1 = ⟨true, none⟩)
    ∧ (∀ (code : String) (lang : Lang), code.length > 50000 →
      (SecurityValidator.validateCode code lang).1
        = ⟨false, some ("Code exceeds maximum length of " ++
            toString SecurityValidator.MAX_CODE_LENGTH ++ " characters")⟩)
    ∧ (∀ (code : String) (lang : Lang), code.length ≤ 50000 → jsTrim code = "" →
      (SecurityValidator.validateCode code lang).1
        = ⟨false, some "Code cannot be empty"⟩)
    ∧ ((SecurityValidator.validateCode "import socket" .python).1.isValid = true
      ∧ (SecurityValidator.validateCode "import socket" .python).2 ≠ []) := by
  refine ⟨?_, ?_, ?_, by decide⟩
  · intro code lang h1 h2
    unfold SecurityValidator.validateCode
    rw [if_neg (by simp only [SecurityValidator.MAX_CODE_LENGTH]; omega),
      if_neg h2]
    cases lang <;>
      simp [SecurityValidator.validatePythonCode,
        SecurityValidator.validateJavaScriptCode]
  · intro code lang h1
    unfold SecurityValidator.validateCode
    rw [if_pos (by simp only [SecurityValidator.MAX_CODE_LENGTH]; omega)]
  · intro code lang h1 h2
    unfold SecurityValidator.validateCode
    rw [if_neg (by simp only [SecurityValidator.MAX_CODE_LENGTH]; omega),
      if_pos h2]

/-- C8 witness: a small non-blank dangerous code string passes. -/
theorem code_validation_spec_witness :
    ("import socket".length ≤ 50000 ∧ jsTrim "import socket" ≠ "")
    ∧ (SecurityValidator.validateCode "import socket" .python).1 = ⟨true, none⟩
    ∧ (SecurityValidator.validateCode "import socket" .javascript).1 = ⟨true, none⟩ :=
  ⟨⟨by decide, by decide⟩,
    code_validation_spec.1 "import socket" .python (by decide) (by decide),
    code_validation_spec.1 "import socket" .javascript (by decide) (by decide)⟩

/-! ### C9 — file-content size limit is measured in bytes -/

/-- UTF-8 length of a replicated character. -/
theorem utf8Len_replicate (n : Nat) (c : Char) :
    SecurityValidator.utf8Len (List.replicate n c) = n * c.utf8Size := by
  induction n with
  | zero => simp [SecurityValidator.utf8Len]
  | succ k ih =>
    simp only [SecurityValidator.utf8Len, List.replicate_succ, List.map_cons,
      List.sum_cons] at ih ⊢
    rw [ih, Nat.succ_mul]
    omega

/-- C9: content whose UTF-8 byte length exceeds the 10 MiB maximum fails
with the size reason, and the limit is measured in bytes, not characters —
any string of `n ≤ 10485760` euro signs (3 bytes each) with `3·n` over the
limit has a within-limit character count yet fails. -/
theorem content_size_spec :
    (∀ content : String,
      SecurityValidator.MAX_FILE_SIZE < SecurityValidator.utf8Len content.data →
      SecurityValidator.validateFileContent content
        = ⟨false, some ("File content exceeds maximum size of " ++
            toString SecurityValidator.MAX_FILE_SIZE ++ " bytes")⟩)
    ∧ (∀ n : Nat, n ≤ 10485760 → 10485760 < 3 * n →
      (String.mk (List.replicate n '€')).length = n
      ∧ SecurityValidator.utf8Len (String.mk (List.replicate n '€')).data = 3 * n
      ∧ SecurityValidator.validateFileContent (String.mk (List.replicate n '€'))
          = ⟨false, some ("File content exceeds maximum size of " ++
              toString SecurityValidator.MAX_FILE_SIZE ++ " bytes")⟩) := by
  have hmax : SecurityValidator.MAX_FILE_SIZE = 10485760 := by decide
  have hsize : ∀ content : String,
      SecurityValidator.MAX_FILE_SIZE < SecurityValidator.utf8Len content.data →
      SecurityValidator.validateFileContent content
        = ⟨false, some ("File content exceeds maximum size of " ++
            toString SecurityValidator.MAX_FILE_SIZE ++ " bytes")⟩ := by
    intro content h
    unfold SecurityValidator.validateFileContent
    rw [if_pos h]
  refine ⟨hsize, ?_⟩
  intro n h1 h2
  have hlen : SecurityValidator.utf8Len (String.mk (List.replicate n '€')).data
      = 3 * n := by
    show SecurityValidator.utf8Len (List.replicate n '€') = 3 * n
    rw [utf8Len_replicate]
    have he : ('€'.utf8Size) = 3 := rfl
    rw [he, Nat.mul_comm]
  refine ⟨?_, hlen, ?_⟩
  · show (List.replicate n '€').length = n
    exact List.length_replicate n '€'
  · exact hsize _ (by rw [hlen, hmax]; exact h2)

/-- C9 witness: four million euro signs — 4,000,000 characters (within the
limit) but 12,000,000 bytes (over it). -/
theorem content_size_spec_witness :
    (4000000 ≤ 10485760 ∧ 10485760 < 3 * 4000000)
    ∧ (String.mk (List.replicate 4000000 '€')).length = 4000000
    ∧ SecurityValidator.validateFileContent (String.mk (List.replicate 4000000 '€'))
        = ⟨false, some ("File content exceeds maximum size of " ++
            toString SecurityValidator.MAX_FILE_SIZE ++ " bytes")⟩ := by
  have h := content_size_spec.2 4000000 (by decide) (by decide)
  exact ⟨⟨by decide, by decide⟩, h.1, h.2.2⟩


/-! ### C1 — sanitize/truncate order in the execution pipeline -/

/-- The stdout/stderr block equals its spec-side description. -/
theorem appendLogLines_eq (init : String) (o : Option (List String)) :
    appendLogLines init o = init ++ specLogBlock o := by
  cases o with
  | none => simp [appendLogLines, specLogBlock, String.append_empty]
  | some l =>
    cases l with
    | nil => simp [appendLogLines, specLogBlock, String.append_empty]
    | cons a t => simp [appendLogLines, specLogBlock, String.append_assoc]

/-- The per-result fold equals its spec-side description. -/
theorem foldl_results_eq (rs : List ResultItem) (init : String) :
    rs.foldl (fun acc res =>
      match res.text with
      | some t => if t ≠ "" then acc ++ t ++ "\n" else acc
      | none => acc) init
    = init ++ specResultsText rs := by
  induction rs generalizing init with
  | nil => simp [specResultsText, String.append_empty]
  | cons a t ih =>
    rw [List.foldl_cons, ih]
    cases ha : a.text with
    | none => simp [specResultText, specResultsText, ha, String.empty_append]
    | some s =>
      by_cases hs : s = ""
      · simp [specResultText, specResultsText, ha, hs, String.empty_append]
      · simp [specResultText, specResultsText, ha, hs, String.append_assoc]

/-- The results block equals its spec-side description. -/
theorem appendResults_eq (init : String) (o : Option (List ResultItem)) :
    appendResults init o = init ++ specResultsBlock o := by
  cases o with
  | none => simp [appendResults, specResultsBlock, String.append_empty]
  | some rs =>
    cases rs with
    | nil =>
      simp [appendResults, specResultsBlock, specResultsText, String.append_empty]
    | cons a t =>
      simp only [appendResults, specResultsBlock]
      rw [if_pos (by simp)]
      exact foldl_results_eq (a :: t) init

/-- The error block equals its spec-side description, and sets the error
flag exactly when a structured error is present. -/
theorem appendError_eq (init : String) (o : Option ExecError) :
    appendError init o = (init ++ specErrorBlock o, o.isSome) := by
  cases o with
  | none => simp [appendError, specErrorBlock, String.append_empty]
  | some e =>
    cases ht : e.traceback with
    | none =>
      simp [appendError, specErrorBlock, ht, String.append_assoc,
        String.append_empty]
    | some tb =>
      by_cases htb : tb = ""
      · simp [appendError, specErrorBlock, ht, htb, String.append_assoc,
          String.append_empty]
      · simp [appendError, specErrorBlock, ht, htb, String.append_assoc]

/-- The full accumulation produces exactly the spec's combined text block,
with the error flag tracking the structured error. -/
theorem assembleOutput_eq (r : ExecResult) :
    assembleOutput r = (specCombinedOutput r, r.error.isSome) := by
  obtain ⟨logs, results, error⟩ := r
  cases logs with
  | none =>
    simp only [assembleOutput, specCombinedOutput]
    rw [appendResults_eq, appendError_eq]
    simp [specLogBlock, String.empty_append]
  | some lg =>
    simp only [assembleOutput, specCombinedOutput]
    rw [appendLogLines_eq, appendLogLines_eq, appendResults_eq, appendError_eq]
    simp [String.empty_append, String.append_assoc]

/-- C1, counterexample: `execute_javascript` returns its output without any
sanitization — for a remote result whose stdout holds an OpenAI-shaped
secret, the returned text is not `truncate (sanitize combined)` (the claim),
it is the raw combined output. -/
theorem js_unsanitized_counterexample :
    (E2BTools.executeJavaScript [] "console.log(1)" none 2 "F"
        (.ok ⟨some ⟨some ["sk-AAAAAAAAAAAAAAAAAAAAAAAAAAAAAAAAAAAAAAAAAAAAAAAA"],
          none⟩, none, none⟩) 7).1.text
      ≠ execSuccessText 7 "F" (truncateOutput (sanitizeOutput (specCombinedOutput
          ⟨some ⟨some ["sk-AAAAAAAAAAAAAAAAAAAAAAAAAAAAAAAAAAAAAAAAAAAAAAAA"],
            none⟩, none, none⟩)))
    ∧ (E2BTools.executeJavaScript [] "console.log(1)" none 2 "F"
        (.ok ⟨some ⟨some ["sk-AAAAAAAAAAAAAAAAAAAAAAAAAAAAAAAAAAAAAAAAAAAAAAAA"],
          none⟩, none, none⟩) 7).1.text
      = execSuccessText 7 "F"
          "sk-AAAAAAAAAAAAAAAAAAAAAAAAAAAAAAAAAAAAAAAAAAAAAAAA\n" := by decide

/-- C1, amended: for every remote result, `execute_python` returns the
envelope around `sanitize (truncate combined)` — sanitization runs after
truncation, not before — while `execute_javascript` returns the envelope
around `truncate combined`, with no sanitization step at all. -/
theorem exec_pipeline_order (pool : Pool) (code : String) (sid : Option String)
    (now : Nat) (fid : String) (r : ExecResult) (ms : Nat) (hne : code ≠ "")
    (hvp : (SecurityValidator.validateCode code .python).1.isValid = true)
    (hvj : (SecurityValidator.validateCode code .javascript).1.isValid = true) :
    (E2BTools.executePython pool code sid now fid (.ok r) ms).1.text
      = execSuccessText ms
          (SandboxService.getOrCreateSandbox pool .python sid now fid).1.id
          (sanitizeOutput (truncateOutput (specCombinedOutput r)))
    ∧ (E2BTools.executeJavaScript pool code sid now fid (.ok r) ms).1.text
      = execSuccessText ms
          (SandboxService.getOrCreateSandbox pool .javascript sid now fid).1.id
          (truncateOutput (specCombinedOutput r)) := by
  have ha := assembleOutput_eq r
  constructor
  · rcases hg : SandboxService.getOrCreateSandbox pool .python sid now fid
      with ⟨sb, p2, cc⟩
    simp [E2BTools.executePython, hne, hvp, hg, ha]
  · rcases hg : SandboxService.getOrCreateSandbox pool .javascript sid now fid
      with ⟨sb, p2, cc⟩
    simp [E2BTools.executeJavaScript, hne, hvj, hg, ha]

/-- C1 witness: the pipeline shapes at a concrete invocation. -/
theorem exec_pipeline_order_witness :
    ("print(1)" ≠ ""
      ∧ (SecurityValidator.validateCode "print(1)" .python).1.isValid = true
      ∧ (SecurityValidator.validateCode "print(1)" .javascript).1.isValid = true)
    ∧ (E2BTools.executePython [] "print(1)" none 2 "F" (.ok ⟨none, none, none⟩) 7).1.text
      = execSuccessText 7
          (SandboxService.getOrCreateSandbox [] .python none 2 "F").1.id
          (sanitizeOutput (truncateOutput (specCombinedOutput ⟨none, none, none⟩)))
    ∧ (E2BTools.executeJavaScript [] "print(1)" none 2 "F" (.ok ⟨none, none, none⟩) 7).1.text
      = execSuccessText 7
          (SandboxService.getOrCreateSandbox [] .javascript none 2 "F").1.id
          (truncateOutput (specCombinedOutput ⟨none, none, none⟩)) := by
  have h := exec_pipeline_order [] "print(1)" none 2 "F" ⟨none, none, none⟩ 7
    (by decide) (by decide) (by decide)
  exact ⟨⟨by decide, by decide, by decide⟩, h.1, h.2⟩

/-! ### C10 — the lookup bump on a language-mismatched explicit id -/

/-- A successful language scan returns a handle of the requested language. -/
theorem scanForLanguage_some_lang (lang : Lang) (now : Nat) :
    ∀ (p : Pool) (r : SandboxHandle) (p' : Pool),
      SandboxService.scanForLanguage lang now p = some (r, p') →
      r.language = lang := by
  intro p
  induction p with
  | nil => intro r p' hc; simp [SandboxService.scanForLanguage] at hc
  | cons a t ih =>
    intro r p' hc
    unfold SandboxService.scanForLanguage at hc
    by_cases hl : a.language = lang
    · rw [if_pos hl] at hc
      simp only [Option.some.injEq, Prod.mk.injEq] at hc
      rw [← hc.1]
      exact hl
    · rw [if_neg hl] at hc
      cases hscan : SandboxService.scanForLanguage lang now t with
      | none => rw [hscan] at hc; cases hc
      | some pr =>
        obtain ⟨r0, t'⟩ := pr
        rw [hscan] at hc
        simp only [Option.some.injEq, Prod.mk.injEq] at hc
        rw [← hc.1]
        exact ih r0 t' hscan

/-- A successful language scan keeps every handle of a different language
unchanged in the pool. -/
theorem scanForLanguage_keeps (lang : Lang) (now : Nat) :
    ∀ (p : Pool) (r : SandboxHandle) (p' : Pool),
      SandboxService.scanForLanguage lang now p = some (r, p') →
      ∀ g ∈ p, g.language ≠ lang → g ∈ p' := by
  intro p
  induction p with
  | nil => intro r p' hc; simp [SandboxService.scanForLanguage] at hc
  | cons a t ih =>
    intro r p' hc g hg hgl
    unfold SandboxService.scanForLanguage at hc
    by_cases hl : a.language = lang
    · rw [if_pos hl] at hc
      simp only [Option.some.injEq, Prod.mk.injEq] at hc
      rcases List.mem_cons.mp hg with rfl | hg'
      · exact absurd hl hgl
      · rw [← hc.2]
        exact List.mem_cons_of_mem _ hg'
    · rw [if_neg hl] at hc
      cases hscan : SandboxService.scanForLanguage lang now t with
      | none => rw [hscan] at hc; cases hc
      | some pr =>
        obtain ⟨r0, t'⟩ := pr
        rw [hscan] at hc
        simp only [Option.some.injEq, Prod.mk.injEq] at hc
        rcases List.mem_cons.mp hg with rfl | hg'
        · rw [← hc.2]; exact List.mem_cons_self _ _
        · rw [← hc.2]
          exact List.mem_cons_of_mem _ (ih r0 t' hscan g hg' hgl)

/-- In an id-unique pool, handles are determined by their id. -/
theorem handle_id_unique (pool : Pool)
    (hnodup : (pool.map SandboxHandle.id).Nodup) (a b : SandboxHandle)
    (ha : a ∈ pool) (hb : b ∈ pool) (hid : a.id = b.id) : a = b := by
  induction pool with
  | nil => cases ha
  | cons x t ih =>
    have hx : x.id ∉ t.map SandboxHandle.id := (List.nodup_cons.mp hnodup).1
    rcases List.mem_cons.mp ha with rfl | ha' <;>
      rcases List.mem_cons.mp hb with rfl | hb'
    · rfl
    · exact absurd (hid ▸ List.mem_map_of_mem _ hb') hx
    · exact absurd (List.mem_map_of_mem SandboxHandle.id ha')
        (by rw [hid]; exact hx)
    · exact ih (List.nodup_cons.mp hnodup).2 ha' hb'

/-- Looking up a freshly appended handle's id bumps and returns it and
leaves the existing handles untouched. -/
theorem getSandbox_append_fresh (p1 : Pool) (i : String) (ca lu : Nat)
    (lang : Lang) (now : Nat) (hfresh : ∀ g ∈ p1, g.id ≠ i) :
    SandboxService.getSandbox (p1 ++ [⟨i, ca, lu, lang⟩]) i now
      = (some ⟨i, ca, now, lang⟩, p1 ++ [⟨i, ca, now, lang⟩]) := by
  have h1 : p1.find? (fun h => h.id == i) = none :=
    List.find?_eq_none.mpr fun g hg => by simpa using hfresh g hg
  have hfind : (p1 ++ [(⟨i, ca, lu, lang⟩ : SandboxHandle)]).find?
      (fun h => h.id == i) = some ⟨i, ca, lu, lang⟩ := by
    rw [List.find?_append, h1]
    simp [List.find?_cons]
  unfold SandboxService.getSandbox
  rw [hfind, List.map_append]
  have hp1 : p1.map
      (fun g => if g.id == i then { g with lastUsed := now } else g) = p1 := by
    conv_rhs => rw [← List.map_id p1]
    refine List.map_congr_left fun g hg => ?_
    simp [beq_eq_false_iff_ne.mpr (hfresh g hg)]
  rw [hp1]
  simp

/-- C10: when `getOrCreateSandbox` is called with an explicit id resolving
to a handle of a different language, the `getSandbox` lookup bumps that
handle's `lastUsed` to now before the language check rejects it: the lookup
returns the bumped handle and stores it, every other handle is untouched by
the lookup, and the bumped (but not returned) handle survives into the final
registry of the whole call while a handle of the requested language is
returned instead. -/
theorem mismatched_lookup_bump (pool : Pool) (h : SandboxHandle) (lang : Lang)
    (now : Nat) (fid : String) (hmem : h ∈ pool) (hlang : h.language ≠ lang)
    (hnodup : (pool.map SandboxHandle.id).Nodup)
    (hfresh : fid ∉ pool.map SandboxHandle.id) :
    (SandboxService.getSandbox pool h.id now).1 = some { h with lastUsed := now }
    ∧ { h with lastUsed := now } ∈ (SandboxService.getSandbox pool h.id now).2
    ∧ (∀ g ∈ pool, g.id ≠ h.id → g ∈ (SandboxService.getSandbox pool h.id now).2)
    ∧ (∀ g ∈ (SandboxService.getSandbox pool h.id now).2,
        g = { h with lastUsed := now } ∨ (g ∈ pool ∧ g.id ≠ h.id))
    ∧ { h with lastUsed := now }
        ∈ (SandboxService.getOrCreateSandbox pool lang (some h.id) now fid).2.1
    ∧ (SandboxService.getOrCreateSandbox pool lang (some h.id) now fid).1.language
        = lang := by
  have hfind := find?_mem_of_nodup pool h hmem hnodup
  have hget : SandboxService.getSandbox pool h.id now
      = (some { h with lastUsed := now },
         pool.map (fun g => if g.id == h.id then { g with lastUsed := now } else g)) := by
    unfold SandboxService.getSandbox
    rw [hfind]
  have hbumpmem : { h with lastUsed := now }
      ∈ pool.map (fun g => if g.id == h.id then { g with lastUsed := now } else g) := by
    have := List.mem_map_of_mem
      (fun g => if g.id == h.id then { g with lastUsed := now } else g) hmem
    simpa using this
  have hothers : ∀ g ∈ pool, g.id ≠ h.id →
      g ∈ pool.map (fun g => if g.id == h.id then { g with lastUsed := now } else g) := by
    intro g hg hne
    have := List.mem_map_of_mem
      (fun g => if g.id == h.id then { g with lastUsed := now } else g) hg
    simpa [beq_eq_false_iff_ne.mpr hne] using this
  have hshape : ∀ g ∈ pool.map
      (fun g => if g.id == h.id then { g with lastUsed := now } else g),
      g = { h with lastUsed := now } ∨ (g ∈ pool ∧ g.id ≠ h.id) := by
    intro g hg
    obtain ⟨g0, hg0, hg0e⟩ := List.mem_map.mp hg
    by_cases hid : g0.id = h.id
    · left
      have hgh : g0 = h := handle_id_unique pool hnodup g0 h hg0 hmem hid
      rw [← hg0e, hgh]
      simp
    · right
      have hge : g = g0 := by
        rw [← hg0e]
        simp [beq_eq_false_iff_ne.mpr hid]
      rw [hge]
      exact ⟨hg0, hid⟩
  have hfresh1 : ∀ g ∈ pool.map
      (fun g => if g.id == h.id then { g with lastUsed := now } else g),
      g.id ≠ fid := by
    intro g hg
    obtain ⟨g0, hg0, hg0e⟩ := List.mem_map.mp hg
    have hgid : g.id = g0.id := by
      rw [← hg0e]
      by_cases hid : g0.id = h.id <;> simp [hid]
    rw [hgid]
    intro hc
    exact hfresh (hc ▸ List.mem_map_of_mem SandboxHandle.id hg0)
  have hstep : SandboxService.getOrCreateSandbox pool lang (some h.id) now fid
      = (match SandboxService.scanForLanguage lang now
            (pool.map (fun g => if g.id == h.id then { g with lastUsed := now } else g)) with
         | some (r, p') => (r, p', [])
         | none =>
           match SandboxService.getSandbox
               ((pool.map (fun g => if g.id == h.id then { g with lastUsed := now } else g))
                 ++ [⟨fid, now, now, lang⟩]) fid now with
           | (some h', p3) => (h', p3, [RemoteCall.sandboxCreate lang])
           | (none, p3) => (⟨fid, now, now, lang⟩, p3, [RemoteCall.sandboxCreate lang])) := by
    simp only [SandboxService.getOrCreateSandbox, hget, SandboxService.createSandbox]
    rw [if_neg (show ¬ ({ h with lastUsed := now } : SandboxHandle).language = lang
      from hlang)]
  have hpost : { h with lastUsed := now }
      ∈ (SandboxService.getOrCreateSandbox pool lang (some h.id) now fid).2.1
      ∧ (SandboxService.getOrCreateSandbox pool lang (some h.id) now fid).1.language
        = lang := by
    rw [hstep]
    cases hscan : SandboxService.scanForLanguage lang now
        (pool.map (fun g => if g.id == h.id then { g with lastUsed := now } else g)) with
    | some pr =>
      obtain ⟨r0, p'⟩ := pr
      exact ⟨scanForLanguage_keeps lang now _ r0 p' hscan _ hbumpmem hlang,
        scanForLanguage_some_lang lang now _ r0 p' hscan⟩
    | none =>
      rw [getSandbox_append_fresh _ fid now now lang now hfresh1]
      exact ⟨List.mem_append_left _ hbumpmem, rfl⟩
  exact ⟨by rw [hget], by rw [hget]; exact hbumpmem,
    fun g hg hne => by rw [hget]; exact hothers g hg hne,
    fun g hg => hshape g (by rw [hget] at hg; exact hg),
    hpost.1, hpost.2⟩

/-- C10 witness: a one-handle javascript pool looked up with its own id but
a python request. -/
theorem mismatched_lookup_bump_witness :
    (SandboxService.getSandbox [⟨"A", 0, 0, .javascript⟩]
        (SandboxHandle.id ⟨"A", 0, 0, .javascript⟩) 7).1
      = some ⟨"A", 0, 7, .javascript⟩
    ∧ (⟨"A", 0, 7, .javascript⟩ : SandboxHandle)
        ∈ (SandboxService.getOrCreateSandbox [⟨"A", 0, 0, .javascript⟩] .python
            (some (SandboxHandle.id ⟨"A", 0, 0, .javascript⟩)) 7 "B").2.1 := by
  have hm := mismatched_lookup_bump [⟨"A", 0, 0, .javascript⟩]
    ⟨"A", 0, 0, .javascript⟩ .python 7 "B" (by simp) (by decide) (by decide)
    (by decide)
  exact ⟨hm.1, hm.2.2.2.2.1⟩

end E2B
